import Mathlib

/-!
Shallow embedding of the `dicemind` crate (tabletop dice-notation parser and
evaluators) and verification of its specification claims.

Conventions used throughout:
* Rust `BigUint` (`PositiveInteger`) is embedded as `Nat`, `BigInt` (`Integer`) as `Int`.
* Fixed-width Rust integers are embedded as `Int`/`Nat` with explicit range checks
  where the source performs checked conversions or checked arithmetic.
* Rust functions that can panic (slice indexing out of bounds, `unwrap`, `todo!`)
  return a dedicated `panic` outcome.
* Loops whose termination is not structural carry a fuel parameter; a distinct
  `fuel` outcome marks exhaustion.  All theorems below evaluate on concrete
  inputs where the supplied fuel is sufficient.
-/

set_option maxRecDepth 8192

/-! ## Rust `core::slice::binary_search_by`

Both interpreters use `slice::binary_search_by`.  This is the Rust standard
library's midpoint binary search: it returns the index of *some* element
comparing `Equal` (not necessarily the first), or the insertion point.
The comparator receives element indices here; callers pass a closure reading
their vector. -/

def bsGo (f : Nat → Ordering) (fuel left right : Nat) : Nat × Bool :=
  match fuel with
  | 0 => (left, false)
  | fuel + 1 =>
    if left < right then
      let mid := left + (right - left) / 2
      match f mid with
      | .lt => bsGo f fuel (mid + 1) right
      | .gt => bsGo f fuel left mid
      | .eq => (mid, true)
    else (left, false)

/-- `binarySearchBy len f = (idx, found)`: Rust `binary_search_by` over indices
`0..len`, where `f i` is the comparator applied to element `i`.
`found = true` models `Ok(idx)`, `found = false` models `Err(idx)`. -/
def binarySearchBy (len : Nat) (f : Nat → Ordering) : Nat × Bool :=
  bsGo f (len + 1) 0 len

/-! ## Augmentation grammar (parser.rs / syntax.rs define these identically) -/

inductive AugmentKind where
  | Drop
  | Keep
deriving DecidableEq, Repr

/-- naive.rs refers to this type as `SelectorOp` (with constructors `Keep`/`Drop`);
that alias is not defined under src/, it is the same enum as `AugmentKind`. -/
abbrev SelectorOp := AugmentKind

inductive Affix where
  | High
  | Low
deriving DecidableEq, Repr

/-- `Selector { relation: Ordering, n: PositiveInteger }` — a threshold test. -/
structure Selector where
  relation : Ordering
  n : Nat
deriving DecidableEq, Repr

inductive Augmentation where
  | Truncate (kind : AugmentKind) (affix : Affix) (n : Option Nat)
  | Filter (kind : AugmentKind) (selector : Selector)
  | Emphasis (n : Option Nat)
  | Explode (selector : Option Selector)
deriving DecidableEq, Repr

/-! ## parser.rs: operators, AST, errors -/

/-- `parser.rs`'s `BinaryOperator` enum.  NOTE: unlike `syntax.rs`, this enum has
no `Chain` constructor. -/
inductive BinaryOperator where
  | Equals
  | LessThan
  | GreaterThan
  | Add
  | Subtract
  | Multiply
deriving DecidableEq, Repr

/-- `impl From<BinaryOperator> for u8` (parser.rs lines 21-31): the explicit
precedence ranks.  Comparisons rank 3 (highest), Multiply 2, Add/Subtract 1. -/
def BinaryOperator.toU8 : BinaryOperator → Nat
  | .Equals | .LessThan | .GreaterThan => 3
  | .Multiply => 2
  | .Add | .Subtract => 1

/-- The discriminant (declaration order) of `parser.rs`'s `BinaryOperator`.
The enum `#[derive(PartialOrd)]`s, and a derived `PartialOrd` on a fieldless
Rust enum compares declaration order.  The manual `impl Ord` (built on `toU8`)
is NOT what the `<=` operator in `_parse` resolves to: `<=` desugars to
`PartialOrd::le`, which is the derived instance. -/
def BinaryOperator.discriminant : BinaryOperator → Nat
  | .Equals => 0
  | .LessThan => 1
  | .GreaterThan => 2
  | .Add => 3
  | .Subtract => 4
  | .Multiply => 5

/-- The derived `PartialOrd` `<=` used by `operator <= top_op` in `_parse`. -/
def BinaryOperator.ple (a b : BinaryOperator) : Bool :=
  a.discriminant ≤ b.discriminant

/-- `parser.rs`'s own `Expression` AST (field `count`, no `Annotated` variant). -/
inductive Expression where
  | Dice (count : Option Expression) (power : Option Expression)
      (augmentations : List Augmentation)
  | Binop (operator : BinaryOperator) (lhs rhs : Expression)
  | Constant (c : Int)
  | Subexpression (e : Expression)
  | UnaryNegation (e : Expression)

inductive ParsingError where
  | EmptyExpression
  | UnbalancedLeftParen
  | UnbalancedRightParen
  | UndefinedSymbol (char : Char)
  | NoOperands (operator : BinaryOperator)
  | MissingOperator
deriving DecidableEq, Repr

/-- Outcome of running a parser function: success, a structured error, a Rust
panic (out-of-bounds slice index), or fuel exhaustion of the embedding. -/
inductive PRes (α : Type) where
  | ok (a : α)
  | err (e : ParsingError)
  | panic
  | fuel

/-! ## parser.rs: leaf parsers -/

/-- `parse_number` (parser.rs lines 224-246): ASCII digits, built via
`d * 10^(len-i-1)` accumulation. -/
def parse_number (chars : List Char) : Option (Nat × List Char) :=
  match chars with
  | [] => none
  | c :: _ =>
    if !c.isDigit then none
    else
      let digits := (chars.takeWhile (·.isDigit)).map (fun d => d.toNat - '0'.toNat)
      let len := digits.length
      let number := digits.enum.foldl (fun acc p => acc + p.2 * 10 ^ (len - p.1 - 1)) 0
      some (number, chars.drop len)

/-- `parse_selector` (parser.rs lines 325-340). -/
def parse_selector (chars : List Char) : Option (Selector × List Char) :=
  match chars with
  | [] => none
  | c :: rest =>
    let rel? : Option Ordering :=
      if c = '>' then some .gt
      else if c = '<' then some .lt
      else if c = '=' then some .eq
      else none
    match rel? with
    | none => none
    | some relation =>
      (parse_number rest).map (fun p => (⟨relation, p.1⟩, p.2))

/-- `parse_augment_explode` (parser.rs lines 128-140). -/
def parse_augment_explode (chars : List Char) : Option (Augmentation × List Char) :=
  match chars with
  | '!' :: rest =>
    match parse_selector rest with
    | some (sel, rest2) => some (.Explode (some sel), rest2)
    | none => some (.Explode none, rest)
  | _ => none

/-- `parse_augment_emphasis` (parser.rs lines 142-156). -/
def parse_augment_emphasis (chars : List Char) : Option (Augmentation × List Char) :=
  match chars with
  | 'e' :: rest =>
    match parse_number rest with
    | some (n, rest2) => some (.Emphasis (some n), rest2)
    | none => some (.Emphasis none, rest)
  | _ => none

/-- `parse_truncation` (parser.rs lines 158-179). -/
def parse_truncation (chars : List Char) : Option (Augmentation × List Char) :=
  match chars with
  | c0 :: c1 :: rest =>
    let kind? : Option AugmentKind :=
      if c0 = 'k' then some .Keep else if c0 = 'd' then some .Drop else none
    let affix? : Option Affix :=
      if c1 = 'l' then some .Low else if c1 = 'h' then some .High else none
    match kind?, affix? with
    | some kind, some affix =>
      match parse_number rest with
      | some (n, rest2) => some (.Truncate kind affix (some n), rest2)
      | none => some (.Truncate kind affix none, rest)
    | _, _ => none
  | _ => none

/-- `parse_filter` (parser.rs lines 181-196). -/
def parse_filter (chars : List Char) : Option (Augmentation × List Char) :=
  match chars with
  | c0 :: rest =>
    let kind? : Option AugmentKind :=
      if c0 = 'k' then some .Keep else if c0 = 'd' then some .Drop else none
    match kind? with
    | some kind =>
      match parse_selector rest with
      | some (sel, rest2) => some (.Filter kind sel, rest2)
      | none => none
    | none => none
  | [] => none

/-- The greedy loop of `parse_augments` (parser.rs lines 198-222); parsers are
tried in the fixed order emphasis, explode, truncation, filter. -/
def parse_augments_go (fuel : Nat) (chars : List Char) (acc : List Augmentation) :
    List Augmentation × List Char :=
  match fuel with
  | 0 => (acc, chars)
  | fuel + 1 =>
    if chars.isEmpty then (acc, chars)
    else
      match parse_augment_emphasis chars with
      | some (a, rest) => parse_augments_go fuel rest (acc ++ [a])
      | none =>
        match parse_augment_explode chars with
        | some (a, rest) => parse_augments_go fuel rest (acc ++ [a])
        | none =>
          match parse_truncation chars with
          | some (a, rest) => parse_augments_go fuel rest (acc ++ [a])
          | none =>
            match parse_filter chars with
            | some (a, rest) => parse_augments_go fuel rest (acc ++ [a])
            | none => (acc, chars)

def parse_augments (chars : List Char) : Option (List Augmentation × List Char) :=
  let p := parse_augments_go (chars.length + 1) chars []
  if p.1.isEmpty then none else some p

/-- `parse_operator` (parser.rs lines 290-302). -/
def parse_operator (c : Char) : Option BinaryOperator :=
  if c = '+' then some .Add
  else if c = '-' then some .Subtract
  else if c = '*' then some .Multiply
  else if c = '>' then some .GreaterThan
  else if c = '<' then some .LessThan
  else if c = '=' then some .Equals
  else none

/-- `push_operator` (parser.rs lines 304-318).  The expression stack is a list
with its head as the top; `pop` yields first `rhs`, then `lhs`. -/
def push_operator (exprs : List Expression) (operator : BinaryOperator) :
    Except ParsingError (List Expression) :=
  match exprs with
  | rhs :: lhs :: rest => .ok (.Binop operator lhs rhs :: rest)
  | _ => .error (.NoOperands operator)

/-- The whitespace-skipping loop `while chars[0].is_whitespace() { chars = &chars[1..] }`
of `_parse` (lines 398-400 and 435-437).  The loop condition indexes `chars[0]`
without checking emptiness, so running off the end of the input is an
out-of-bounds panic, modelled as `none`. -/
def skipWs : List Char → Option (List Char)
  | [] => none
  | c :: cs => if c.isWhitespace then skipWs cs else some (c :: cs)

/-- The scan for the matching `)` in `parse_subexpr` (parser.rs lines 355-368):
depth counter `unmatched`, returns the index of the closing paren. -/
def findCloseGo : List Char → Nat → Nat → Option Nat
  | [], _, _ => none
  | c :: cs, unmatched, i =>
    if c = '(' then findCloseGo cs (unmatched + 1) (i + 1)
    else if c = ')' then
      if unmatched = 1 then some i else findCloseGo cs (unmatched - 1) (i + 1)
    else findCloseGo cs unmatched (i + 1)

/-- Draining the operator stack at end of input (parser.rs lines 457-459). -/
def drainOps : List Expression → List BinaryOperator → Except ParsingError (List Expression)
  | exprs, [] => .ok exprs
  | exprs, op :: rest =>
    match push_operator exprs op with
    | .error e => .error e
    | .ok exprs2 => drainOps exprs2 rest

/-- End-of-input handling of `_parse` (parser.rs lines 457-465): drain the
operator stack, then check `expressions.len() != operators.len() + 1` (the
operator stack is empty at this point), then `expressions.pop()`. -/
def parseFinish (exprs : List Expression) (ops : List BinaryOperator) : PRes Expression :=
  match drainOps exprs ops with
  | .error e => .err e
  | .ok exprs2 =>
    if exprs2.length ≠ 0 + 1 then .err .MissingOperator
    else
      match exprs2 with
      | e :: _ => .ok e
      | [] => .err .EmptyExpression

/-! ## parser.rs: the mutually recursive core -/

mutual

/-- `parse_dice` (parser.rs lines 248-288). -/
def parse_dice (fuel : Nat) (chars : List Char) : PRes (Option (Expression × List Char)) :=
  match fuel with
  | 0 => .fuel
  | fuel + 1 =>
    match parse_term fuel chars with
    | .err e => .err e
    | .panic => .panic
    | .fuel => .fuel
    | .ok termRes =>
      let count : Option Expression := termRes.map (·.1)
      let chars1 := match termRes with
        | some (_, rest) => rest
        | none => chars
      match chars1 with
      | [] => .ok none
      | c :: cs =>
        if c = 'd' then
          match parse_term fuel cs with
          | .err e => .err e
          | .panic => .panic
          | .fuel => .fuel
          | .ok powerRes =>
            let (power, chars2) : Option Expression × List Char :=
              match powerRes with
              | some (e, rest) => (some e, rest)
              | none =>
                match cs with
                | '%' :: cs2 => (some (.Constant 100), cs2)
                | _ => (none, cs)
            let (augs, chars3) : List Augmentation × List Char :=
              match parse_augments chars2 with
              | some (a, rest) => (a, rest)
              | none => ([], chars2)
            .ok (some (.Dice count power augs, chars3))
        else .ok none

/-- `parse_subexpr` (parser.rs lines 342-371). -/
def parse_subexpr (fuel : Nat) (chars : List Char) : PRes (Option (Expression × List Char)) :=
  match fuel with
  | 0 => .fuel
  | fuel + 1 =>
    match chars with
    | [] => .ok none
    | c :: _ =>
      if c = ')' then .err .UnbalancedRightParen
      else if c ≠ '(' then .ok none
      else
        match findCloseGo chars 0 0 with
        | some i =>
          match _parse fuel ((chars.drop 1).take (i - 1)) with
          | .ok e => .ok (some (e, chars.drop (i + 1)))
          | .err e => .err e
          | .panic => .panic
          | .fuel => .fuel
        | none => .err .UnbalancedLeftParen

/-- `parse_term` (parser.rs lines 373-381). -/
def parse_term (fuel : Nat) (chars : List Char) : PRes (Option (Expression × List Char)) :=
  match fuel with
  | 0 => .fuel
  | fuel + 1 =>
    match parse_number chars with
    | some (n, rest) => .ok (some (.Constant (Int.ofNat n), rest))
    | none =>
      match parse_subexpr fuel chars with
      | .ok (some (sub, rest)) => .ok (some (.Subexpression sub, rest))
      | .ok none => .ok none
      | .err e => .err e
      | .panic => .panic
      | .fuel => .fuel

/-- `parse_term_or_dice` (parser.rs lines 383-391). -/
def parse_term_or_dice (fuel : Nat) (chars : List Char) : PRes (Option (Expression × List Char)) :=
  match fuel with
  | 0 => .fuel
  | fuel + 1 =>
    match parse_dice fuel chars with
    | .ok (some p) => .ok (some p)
    | .ok none =>
      match parse_term fuel chars with
      | .ok r => .ok r
      | .err e => .err e
      | .panic => .panic
      | .fuel => .fuel
    | .err e => .err e
    | .panic => .panic
    | .fuel => .fuel

/-- `_parse` (parser.rs lines 393-466). -/
def _parse (fuel : Nat) (chars : List Char) : PRes Expression :=
  match fuel with
  | 0 => .fuel
  | fuel + 1 => parseLoop fuel chars [] []

/-- The main `while !chars.is_empty()` loop of `_parse`, with the expression and
operator stacks (heads are stack tops). -/
def parseLoop (fuel : Nat) (chars : List Char) (exprs : List Expression)
    (ops : List BinaryOperator) : PRes Expression :=
  match fuel with
  | 0 => .fuel
  | fuel + 1 =>
    match chars with
    | [] => parseFinish exprs ops
    | _ :: _ =>
      match skipWs chars with
      | none => .panic
      | some chars1 =>
        -- `if chars.is_empty() { break; }` — unreachable (skipWs yields a
        -- non-empty list or panics), kept to mirror the source.
        if chars1.isEmpty then parseFinish exprs ops
        else
          -- unary wrapper: only when both stacks are empty (start of input)
          let (neg, chars2) : Bool × List Char :=
            if exprs.isEmpty && ops.isEmpty then
              match chars1 with
              | '-' :: rest => (true, rest)
              | '+' :: rest => (false, rest)
              | _ => (false, chars1)
            else (false, chars1)
          match parse_term_or_dice fuel chars2 with
          | .err e => .err e
          | .panic => .panic
          | .fuel => .fuel
          | .ok none =>
            -- `Err(ParsingError::UndefinedSymbol { char: chars[0] })`:
            -- indexes chars[0]; panics if the slice is empty (input "-" / "+").
            match chars2 with
            | [] => .panic
            | c :: _ => .err (.UndefinedSymbol c)
          | .ok (some (term, rest)) =>
            let exprs := (if neg then Expression.UnaryNegation term else term) :: exprs
            if rest.isEmpty then parseFinish exprs ops
            else
              match skipWs rest with
              | none => .panic
              | some [] => .panic  -- unreachable: skipWs never yields []
              | some (c3 :: cs3) =>
                match parse_operator c3 with
                | some operator =>
                  match ops with
                  | top :: rest_ops =>
                    -- `if operator <= top_op` — the derived PartialOrd
                    if operator.ple top then
                      match push_operator exprs top with
                      | .error e => .err e
                      | .ok exprs2 => parseLoop fuel cs3 exprs2 (operator :: rest_ops)
                    else
                      parseLoop fuel cs3 exprs (operator :: top :: rest_ops)
                  | [] => parseLoop fuel cs3 exprs [operator]
                | none =>
                  -- not an operator: nothing consumed, loop again
                  parseLoop fuel (c3 :: cs3) exprs ops

end

/-- `parse` (parser.rs lines 320-323).  The quadratic fuel is sufficient for
every input: each loop iteration or recursive call either consumes a character
or terminates the enclosing call. -/
def parse (input : String) : PRes Expression :=
  _parse ((input.length + 2) * (input.length + 2)) input.toList


/-! ## Error types of the interpreters

fast.rs declares `FastRollerError`; verbose.rs returns it as well (it also
names an `InfiniteExplosion` variant, declared in error.rs's `RollerError`
taxonomy; it is included here so verbose.rs's early return is representable). -/

inductive FastRollerError where
  | ValueTooLarge
  | Overflow
  | TruncationFailure (rolled removed : Nat)
  | InfiniteExplosion
deriving DecidableEq, Repr

/-- Outcome of an interpreter computation: success, a structured error, a Rust
panic (`unwrap`/`todo!`/index out of bounds), or exhaustion of the injected
list of random draws (a model artifact: the Rust code draws from an RNG). -/
inductive RollOutcome (ε α : Type) where
  | ok (a : α)
  | err (e : ε)
  | panic
  | rng

/-! ## naive.rs: the tagged strategy's rolled values and augmentation engine -/

/-- bitflags `DiceRollTag` (naive.rs lines 123-132), one Bool per flag. -/
structure DiceRollTag where
  fail : Bool := false
  success : Bool := false
  explodes : Bool := false
  explosion : Bool := false
  discarded : Bool := false
deriving DecidableEq, Repr

structure TaggedDiceRoll where
  tag : DiceRollTag
  value : Int
deriving DecidableEq, Repr

instance : Inhabited TaggedDiceRoll := ⟨⟨{}, 0⟩⟩

/-- `impl From<i64> for TaggedDiceRoll`: empty tag. -/
def TaggedDiceRoll.ofInt (n : Int) : TaggedDiceRoll := ⟨{}, n⟩

def TaggedDiceRoll.with_success_on (r : TaggedDiceRoll) (succ : Int) : TaggedDiceRoll :=
  if r.value = succ then { r with tag := { r.tag with success := true } } else r

def TaggedDiceRoll.with_fail_on (r : TaggedDiceRoll) (f : Int) : TaggedDiceRoll :=
  if r.value = f then { r with tag := { r.tag with fail := true } } else r

def TaggedDiceRoll.with_fail_on_1 (r : TaggedDiceRoll) : TaggedDiceRoll :=
  r.with_fail_on 1

def TaggedDiceRoll.discard (r : TaggedDiceRoll) : TaggedDiceRoll :=
  { r with tag := { r.tag with discarded := true } }

/-- `roll_one` (naive.rs lines 16-24) with the RNG draw
`gen_range(1..=power.abs())` supplied as `draw`. -/
def roll_one (draw : Nat) (power : Int) : TaggedDiceRoll :=
  if power = 0 then TaggedDiceRoll.ofInt 0
  else ((TaggedDiceRoll.ofInt ((draw : Int) * power.sign)).with_fail_on_1).with_success_on power

/-- Modelled from the spec: `Selector::matches` is called by naive.rs but not
defined under src/.  Spec §3: "`Selector { relation: Less|Equal|Greater, n }` —
a threshold test"; §4.3 (Filter): "evaluate the `Selector` relation against
each retained value's face value".  The rolled value is compared against the
threshold, the direction every in-src analogue uses (roll.rs Filter arm:
`(Drop, Less) → x.value() < n`; verbose.rs explosion check:
`n1.cmp(n2) == *relation` with `n1` the rolled value). -/
def Selector.matchesValue (sel : Selector) (v : Int) : Bool :=
  compare v (Int.ofNat sel.n) = sel.relation

/-- `should_selector_discard` (naive.rs lines 49-65). -/
def should_selector_discard (n : Int) (selector : Selector) (op : SelectorOp) : Bool :=
  let m := selector.matchesValue n
  let keep := op = AugmentKind.Keep
  if keep then
    if !m then true else false
  else
    if m then true else false

/-- `optional_big_uint_to_usize_or_1` (naive.rs lines 67-71): `None` and
values exceeding `usize::MAX` both fall back to 1. -/
def optional_big_uint_to_usize_or_1 (n : Option Nat) : Nat :=
  match n with
  | none => 1
  | some k => if k < 2 ^ 64 then k else 1

/-- The index-ranking loop of naive.rs's Truncate arm (lines 83-87): for each
roll index `i` in roll order, `binary_search_by(|j| dice[*j].cmp(&dice[i]))`
over the index list built so far (`TaggedDiceRoll`'s `Ord` compares `value`
only), inserting `i` at the returned position (found or not).  Despite the
variable's name `indices_high_to_low`, the list is ordered ascending by value. -/
def truncateIndices (dice : List TaggedDiceRoll) : List Nat :=
  (List.range dice.length).foldl
    (fun idxs i =>
      let p := binarySearchBy idxs.length
        (fun k => compare (dice.getD (idxs.getD k 0) default).value (dice.getD i default).value)
      idxs.insertIdx p.1 i)
    []

/-- One iteration of `augment`'s `for augment in augments` loop
(naive.rs lines 78-118).  Every arm returns `Ok` in the source (the
`RollerResult` wrapper has no error path), so this is a total function.
The Emphasis arm computes `n` and does nothing further; the Explode arm is
empty. -/
def augmentStep (dice : List TaggedDiceRoll) : Augmentation → List TaggedDiceRoll
  | .Truncate op affix n =>
    let n := optional_big_uint_to_usize_or_1 n
    let indices := truncateIndices dice
    let ordered := match op, affix with
      | .Keep, .Low => indices
      | .Drop, .High => indices
      | .Keep, .High => indices.reverse
      | .Drop, .Low => indices.reverse
    let keep_indices := ordered.take n
    dice.enum.map (fun p => if keep_indices.contains p.1 then p.2 else p.2.discard)
  | .Filter op selector =>
    dice.map (fun d => if should_selector_discard d.value selector op then d.discard else d)
  | .Emphasis n =>
    let _ := optional_big_uint_to_usize_or_1 n
    dice
  | .Explode _ => dice

/-- `augment` (naive.rs lines 73-121).  The unused `power` parameter of the
source is dropped; no arm reads it. -/
def augment (dice : List TaggedDiceRoll) (augments : List Augmentation) : List TaggedDiceRoll :=
  augments.foldl augmentStep dice

inductive NaiveValue where
  | Constant (c : Int)
  | Dice (dice : List TaggedDiceRoll)
deriving DecidableEq, Repr

/-- `NaiveValue::total` (naive.rs lines 225-234): folds `acc + value` over ALL
dice — the `DISCARDED` tag is not consulted. -/
def NaiveValue.total : NaiveValue → Int
  | .Constant c => c
  | .Dice dice => dice.foldl (fun acc r => acc + r.value) 0

/-- Sum of the values not marked discarded — what spec §4.3 says a dice term
contributes to a parent total. -/
def sumNonDiscarded (dice : List TaggedDiceRoll) : Int :=
  (dice.filter (fun d => !d.tag.discarded)).foldl (fun acc r => acc + r.value) 0

def i64Max : Int := 2 ^ 63 - 1
def i64Min : Int := -(2 ^ 63)
def i32Max : Int := 2 ^ 31 - 1
def i32Min : Int := -(2 ^ 31)

/-- naive.rs `visit_constant` (lines 287-289):
`Ok(NaiveValue::Constant(i64::try_from(c).unwrap()))` — a constant outside the
i64 range makes the `unwrap` panic; no `ValueTooLarge` error is produced. -/
def naive_visit_constant (c : Int) : RollOutcome Unit NaiveValue :=
  if i64Min ≤ c ∧ c ≤ i64Max then .ok (.Constant c) else .panic


/-! ## verbose.rs: verbose rolling and its augmentation application -/

/-- verbose.rs's `DiceRoll` (lines 11-17; i32 value). -/
structure DiceRoll where
  value : Int
  exploded : Bool
  critical_fumble : Bool
  critical_success : Bool
deriving DecidableEq, Repr

instance : Inhabited DiceRoll := ⟨⟨0, false, false, false⟩⟩

/-- `DiceRoll::collapse`. -/
def DiceRoll.collapse (r : DiceRoll) : Int := r.value

/-- `MinMax::insort` (minmax.rs lines 44-48): binary-search the sorted vector
(`DiceRoll`'s `Ord` compares `value`), insert at the returned index. -/
def insort (sorted : List DiceRoll) (v : DiceRoll) : List DiceRoll :=
  let p := binarySearchBy sorted.length (fun k => compare (sorted.getD k default).value v.value)
  sorted.insertIdx p.1 v

/-- `apply_augments` (verbose.rs lines 38-97).  Notable features mirrored
exactly from the source:
* Truncate computes `i` as one past the `binary_search_by(|x| x.value.cmp(&n))`
  position — it searches the dice VALUES for the truncation count `n`;
* `i > rolls.len()` hits `TruncationFailure { rolled: todo!(), removed: todo!() }`,
  whose `todo!()` panics before the error value exists;
* Truncate and Filter REMOVE dice (`drain` / `extract_if`) instead of marking
  them discarded;
* the Emphasis arm is `todo!()`: a panic. -/
def apply_augments : List DiceRoll → List Augmentation →
    RollOutcome FastRollerError (List DiceRoll)
  | rolls, [] => .ok rolls
  | rolls, a :: rest =>
    match a with
    | .Truncate kind affix n =>
      let n? : Option Nat := match n with
        | none => some 1
        | some k => if (k : Int) ≤ i32Max then some k else none
      match n? with
      | none => .err .ValueTooLarge
      | some nn =>
        let p := binarySearchBy rolls.length
          (fun k => compare (rolls.getD k default).value (Int.ofNat nn))
        let i := p.1 + 1
        if i > rolls.length then .panic
        else
          let rolls2 := match kind, affix with
            | .Drop, .High => rolls.take i   -- drain(i..)
            | .Drop, .Low => rolls.drop i    -- drain(..i)
            | .Keep, .High => rolls.drop i   -- drain(..i)
            | .Keep, .Low => rolls.take i    -- drain(i..)
          apply_augments rolls2 rest
    | .Filter kind selector =>
      if (selector.n : Int) ≤ i32Max then
        let n : Int := selector.n
        let pred : DiceRoll → Bool := match kind, selector.relation with
          | .Drop, .lt => fun x => x.collapse < n
          | .Drop, .eq => fun x => x.collapse = n
          | .Drop, .gt => fun x => x.collapse > n
          | .Keep, .lt => fun x => x.collapse ≥ n
          | .Keep, .eq => fun x => x.collapse ≠ n
          | .Keep, .gt => fun x => x.collapse ≤ n
        apply_augments (rolls.filter (fun x => !(pred x))) rest
      else .err .ValueTooLarge
    | .Emphasis _ => .panic
    | .Explode _ => apply_augments rolls rest

/-- The per-roll explosion test built in `verbose_roll` (lines 142-152):
no conditions → never explode; `Some(selector)` → `value.cmp(n) == relation`;
`None` → explode on the maximum face. -/
def checkExplosionConds (conds : List (Option Selector)) (n power : Nat) : Bool :=
  !conds.isEmpty && conds.any (fun x =>
    match x with
    | some sel => compare n sel.n = sel.relation
    | none => n = power)

/-- The infinite-explosion guard of `verbose_roll` (lines 127-140): for each
`Some(Selector { relation, n })` explosion condition, reject when the relation
holds both between `count` and `n` and between `count * power` and `n`.
Conditions with no selector (`None`) are never rejected. -/
def infiniteGuard (count power : Nat) (conds : List (Option Selector)) : Bool :=
  conds.any (fun c =>
    match c with
    | some sel =>
      compare count sel.n = sel.relation && compare (count * power) sel.n = sel.relation
    | none => false)

/-- The `while i < count` rolling loop of `verbose_roll` (lines 155-177), with
the RNG draws `gen_range(1..=power)` supplied by `stream`.  A draw above
`i32::MAX` fails the `try_into` with `Overflow`; a matching explosion test
increments `count`.  Returns the sorted rolls and the unconsumed draws. -/
def verboseRollLoop : List Nat → Nat → Nat → Nat → (Nat → Nat → Bool) → List DiceRoll →
    RollOutcome FastRollerError (List DiceRoll × List Nat)
  | [], i, count, _power, _check, out =>
    if i < count then .rng else .ok (out, [])
  | v :: stream', i, count, power, check, out =>
    if i < count then
      if (v : Int) > i32Max then .err .Overflow
      else
        let exploded := check v power
        verboseRollLoop stream' (i + 1) (if exploded then count + 1 else count) power check
          (insort out ⟨v, exploded, false, false⟩)
    else .ok (out, v :: stream')

/-- The `explode_conditions` collected at the top of `verbose_roll`
(lines 116-125): the selectors of every Explode augmentation. -/
def explodeConds (augments : List Augmentation) : List (Option Selector) :=
  augments.filterMap (fun a =>
    match a with
    | .Explode sel => some sel
    | _ => none)

/-- `verbose_roll` (verbose.rs lines 99-180). -/
def verbose_roll (stream : List Nat) (count power : Nat) (augments : List Augmentation) :
    RollOutcome FastRollerError (List DiceRoll × List Nat) :=
  let conds := explodeConds augments
  if infiniteGuard count power conds then .err .InfiniteExplosion
  else
    match verboseRollLoop stream 0 count power (checkExplosionConds conds) [] with
    | .ok (out, rest) =>
      match apply_augments out augments with
      | .ok rolls => .ok (rolls, rest)
      | .err e => .err e
      | .panic => .panic
      | .rng => .rng
    | .err e => .err e
    | .panic => .panic
    | .rng => .rng

/-! ## big.rs: the exact-distribution engine -/

/-- `convolve` (big.rs lines 19-30): allocate `a.len + b.len - 1` zeros, then
`convolved[i + j] += a[i] * b[j]` over all pairs.  Exact `Nat` (BigUint)
arithmetic. -/
def convolve (a b : List Nat) : List Nat :=
  let init := List.replicate (a.length + b.length - 1) 0
  a.enum.foldl
    (fun acc p =>
      b.enum.foldl
        (fun acc2 q => acc2.set (p.1 + q.1) (acc2.getD (p.1 + q.1) 0 + p.2 * q.2))
        acc)
    init

/-- `multiconvolve` (big.rs lines 32-44): start from `vec![1; power]` and
convolve with it `count - 1` more times.  (For `count = 0` the Rust
`0..(c - 1)` underflows `usize`; no claim evaluates it there, and the
`Nat`-truncated `count - 1` here makes it behave like `count = 1`.) -/
def multiconvolve (count power : Nat) : List Nat :=
  let base := List.replicate power 1
  Nat.iterate (fun l => convolve l base) (count - 1) base

/-- `max_convolved` (big.rs lines 46-50): `z[z.len() / 2]`; `none` models the
index panic on an empty vector. -/
def max_convolved (count power : Nat) : Option Nat :=
  let z := multiconvolve count power
  z.get? (z.length / 2)

/-- `nth` (big.rs lines 52-55): `multiconvolve(count, power)[nth - 1]`.
`none` models the two panics: the `usize` underflow at `nth = 0` and the
out-of-bounds index. -/
def nth (count power u : Nat) : Option Nat :=
  if u = 0 then none
  else (multiconvolve count power).get? (u - 1)

/-- The bounds of `ziggurat`'s candidate draw (big.rs lines 59-65):
`gen_biguint_range(&lb, &rb)` samples uniformly from `[lb, rb)`. -/
def zigguratLb (count _power : Nat) : Nat := count
def zigguratRb (count power : Nat) : Nat := count * power + 1

/-- One trial of `ziggurat`'s rejection loop (big.rs lines 64-75): candidate
`u` from `[lb, rb)`, rejection draw `v` from `[1, max_convolved]`, accept if
`v <= nth(count, power, u)`.  `none` models the panic inside `nth`. -/
def zigguratTrial (count power u v : Nat) : Option Bool :=
  (nth count power u).map (fun n => v ≤ n)

/-! ## fast.rs: the fast strategy -/

/-- Checked i32 result: `Overflow` outside the i32 range (fast.rs
`checked_add/sub/mul(..).ok_or(Overflow)`). -/
def checkedI32 (n : Int) : Except FastRollerError Int :=
  if i32Min ≤ n ∧ n ≤ i32Max then .ok n else .error .Overflow

/-- fast.rs `visit_constant` (lines 96-98):
`c.try_into().map_err(|_| FastRollerError::ValueTooLarge)`. -/
def fast_visit_constant (c : Int) : Except FastRollerError Int :=
  if i32Min ≤ c ∧ c ≤ i32Max then .ok c else .error .ValueTooLarge

/-- fast.rs `visit_binop` (lines 100-117): comparisons produce 0/1, arithmetic
is checked. -/
def fast_visit_binop (op : BinaryOperator) (lhs rhs : Except FastRollerError Int) :
    Except FastRollerError Int :=
  match op with
  | .Equals => do
    let l ← lhs
    let r ← rhs
    pure (if l = r then 1 else 0)
  | .LessThan => do
    let l ← lhs
    let r ← rhs
    pure (if l < r then 1 else 0)
  | .GreaterThan => do
    let l ← lhs
    let r ← rhs
    pure (if l > r then 1 else 0)
  | .Add => do
    let l ← lhs
    let r ← rhs
    checkedI32 (l + r)
  | .Subtract => do
    let l ← lhs
    let r ← rhs
    checkedI32 (l - r)
  | .Multiply => do
    let l ← lhs
    let r ← rhs
    checkedI32 (l * r)

/-- Result of the fast visitor: an i32 result (or error) plus the unconsumed
RNG draws, a panic, or draw-stream exhaustion. -/
inductive FVRes where
  | res (r : Except FastRollerError Int) (s : List Nat)
  | panic
  | rng

/-- The unaugmented rolling loop of fast.rs `visit_dice` (lines 79-84):
`sum.checked_add(n.try_into().map_err(|_| ValueTooLarge)?).ok_or(Overflow)?`
per draw. -/
def fastDiceSum : Nat → List Nat → Int → FVRes
  | 0, s, sum => .res (.ok sum) s
  | k + 1, s, sum =>
    match s with
    | [] => .rng
    | n :: s' =>
      if (n : Int) > i32Max then .res (.error .ValueTooLarge) s'
      else
        match checkedI32 (sum + n) with
        | .error e => .res (.error e) s'
        | .ok sum' => fastDiceSum k s' sum'

/-- The fast strategy's evaluation of a parsed expression: the generic visitor
traversal (visitor.rs `visit`, including the `--x ≡ x` double-negation
collapse and eager Binop evaluation of both children) instantiated with
fast.rs's `FastRoller` methods.  RNG draws (`gen_range(1..=power)`) are
supplied by `s`.  Dice follow fast.rs `visit_dice` (lines 56-94): config
defaults count 1 / power 6, sign split, `0` for empty pools, direct summation
without augmentations and the `verbose_roll` fallback (whose collapsed i32 sum
the source leaves unchecked) with them. -/
def fastVisit : Expression → List Nat → FVRes
  | .Constant c, s => .res (fast_visit_constant c) s
  | .Subexpression e, s => fastVisit e s
  | .UnaryNegation (.UnaryNegation e), s => fastVisit e s
  | .UnaryNegation e, s =>
    match fastVisit e s with
    | .res (.ok v) s1 => .res (checkedI32 (v * (-1))) s1
    | other => other
  | .Binop op l r, s =>
    match fastVisit l s with
    | .res lr s1 =>
      match fastVisit r s1 with
      | .res rr s2 => .res (fast_visit_binop op lr rr) s2
      | other => other
    | other => other
  | .Dice q p augs, s =>
    -- the visitor evaluates quantity and power (or takes the defaults)
    -- before dispatching to visit_dice, even when the first of them errors
    let qres : FVRes := match q with
      | some e => fastVisit e s
      | none => .res (.ok 1) s
    match qres with
    | .res qr s1 =>
      let pres : FVRes := match p with
        | some e => fastVisit e s1
        | none => .res (.ok 6) s1
      match pres with
      | .res pr s2 =>
        -- `let (sign_1, count) = count.map(..)?;` fires before power's `?`
        match qr with
        | .error e => .res (.error e) s2
        | .ok cval =>
          match pr with
          | .error e => .res (.error e) s2
          | .ok pval =>
            let sign1 : Int := cval.sign
            let sign2 : Int := pval.sign
            let count := cval.natAbs
            let power := pval.natAbs
            if count = 0 ∨ power = 0 then .res (.ok 0) s2
            else if augs.isEmpty then
              match fastDiceSum count s2 0 with
              | .res (.ok sum) s3 => .res (checkedI32 (sum * (sign1 * sign2))) s3
              | other => other
            else
              match verbose_roll s2 count power augs with
              | .ok (rolls, s3) =>
                let sum := rolls.foldl (fun acc r => acc + r.collapse) 0
                .res (checkedI32 (sum * (sign1 * sign2))) s3
              | .err e => .res (.error e) s2
              | .panic => .panic
              | .rng => .rng
      | other => other
    | other => other

/-! ## syntax.rs: the evaluator-facing AST

syntax.rs declares a second `BinaryOperator` (with `Chain` lowest) and a second
`Expression` (field `quantity`, extra `Annotated` variant); visitor.rs and the
interpreters traverse this one. -/

namespace Syn

inductive BinaryOperator where
  | Chain
  | Equals
  | LessThan
  | GreaterThan
  | Add
  | Subtract
  | Multiply
deriving DecidableEq, Repr

/-- syntax.rs's `From<BinaryOperator> for u8` (lines 24-35): Multiply 3,
Add/Subtract 2, comparisons 1, Chain 0.  (This enum is not the one parser.rs
builds trees from.) -/
def BinaryOperator.toU8 : BinaryOperator → Nat
  | .Multiply => 3
  | .Add | .Subtract => 2
  | .Equals | .LessThan | .GreaterThan => 1
  | .Chain => 0

inductive Expression where
  | Dice (quantity : Option Expression) (power : Option Expression)
      (augmentations : List Augmentation)
  | Binop (operator : BinaryOperator) (lhs rhs : Expression)
  | Constant (c : Int)
  | Annotated (expression : Expression) (label : String)
  | Subexpression (e : Expression)
  | UnaryNegation (e : Expression)

end Syn

/-- error.rs's `RollerError` (lines 8-28).  The last variant is Rust's
`DuplicateAnnotation` (label, first and second originating expressions). -/
inductive RollerError where
  | ValueTooLarge (value : Int)
  | Overflow
  | TruncationFailure (rolled removed : Nat)
  | InfiniteExplosion
  | DuplicateAnnot (label : String) (first second : Syn.Expression)

/-! ## The verbose strategy's annotation map

Modelled from the spec: the annotation-collecting verbose roller
(`StandardVerboseRoller`) is not under src/ — examples/discord.rs calls it
(`roller.roll(expr)`, `rolled.annotated_results()`) and error.rs declares its
duplicate-annotation error, but its implementation file is absent.  Spec §3:
"Annotation map — label → (originating sub-expression, its result) ...
if the same label is attached to two sub-expressions whose results differ,
evaluation fails (duplicate-annotation error); identical results under the
same label are tolerated", and §4.2/4.3: the strategy records sub-results
under labels and "binary operators merge their children's annotation maps,
failing on label collision with differing results". -/

abbrev AnnMap := List (String × Syn.Expression × Int)

def annLookup (m : AnnMap) (lbl : String) : Option (Syn.Expression × Int) :=
  (m.find? (fun e => e.1 = lbl)).map (·.2)

/-- Record `lbl → (e, v)`: tolerated if the label is present with the same
result, duplicate-annotation error if present with a different one. -/
def annInsert (m : AnnMap) (lbl : String) (e : Syn.Expression) (v : Int) :
    Except RollerError AnnMap :=
  match annLookup m lbl with
  | some (e0, v0) => if v0 = v then .ok m else .error (.DuplicateAnnot lbl e0 e)
  | none => .ok (m ++ [(lbl, e, v)])

/-- Merge two children's annotation maps, failing on a label collision whose
recorded results differ. -/
def mergeAnn (a b : AnnMap) : Except RollerError AnnMap :=
  b.foldlM (fun acc p => annInsert acc p.1 p.2.1 p.2.2) a

def checkedI64 (n : Int) : Except RollerError Int :=
  if i64Min ≤ n ∧ n ≤ i64Max then .ok n else .error .Overflow

/-- Modelled from the spec: evaluation of the verbose strategy over the
syntax.rs AST — a working total (i64, like the in-src naive strategy it wraps)
paired with the annotation map.  The traversal mirrors visitor.rs (double
negation collapses, `Subexpression` is transparent, Binop children evaluate
eagerly); binop semantics follow naive.rs `visit_binop` (comparisons to 0/1,
checked arithmetic, `Chain` yields the right operand).  Dice need the injected
RNG and are outside this model (`none`); the annotation invariant under
scrutiny involves no dice. -/
def verboseEval : Syn.Expression → Option (Except RollerError (Int × AnnMap))
  | .Dice _ _ _ => none
  | .Constant c =>
    some (if i64Min ≤ c ∧ c ≤ i64Max then .ok (c, []) else .error (.ValueTooLarge c))
  | .Subexpression e => verboseEval e
  | .UnaryNegation (.UnaryNegation e) => verboseEval e
  | .UnaryNegation e =>
    match verboseEval e with
    | some (.ok (v, m)) => some ((checkedI64 (-v)).map (fun v2 => (v2, m)))
    | r => r
  | .Annotated e lbl =>
    match verboseEval e with
    | some (.ok (v, m)) => some ((annInsert m lbl e v).map (fun m2 => (v, m2)))
    | r => r
  | .Binop op l r =>
    match verboseEval l, verboseEval r with
    | some (.ok (lv, lm)), some (.ok (rv, rm)) =>
      some (do
        let m ← mergeAnn lm rm
        let v ← match op with
          | .Chain => Except.ok rv
          | .Equals => Except.ok (if lv = rv then (1 : Int) else 0)
          | .LessThan => Except.ok (if lv < rv then (1 : Int) else 0)
          | .GreaterThan => Except.ok (if lv > rv then (1 : Int) else 0)
          | .Add => checkedI64 (lv + rv)
          | .Subtract => checkedI64 (lv - rv)
          | .Multiply => checkedI64 (lv * rv)
        pure (v, m))
    | some (.error e), some _ => some (.error e)
    | some (.ok _), some (.error e) => some (.error e)
    | _, _ => none


/-! ## Concrete fixtures used by the theorems -/

/-- The tagged rolls of `4d6` producing face values `[3, 6, 1, 5]` in roll
order (each built by `roll_one` with sign 1, as naive.rs's `roll_many` does
for positive quantity and power). -/
def dice3615 : List TaggedDiceRoll := [3, 6, 1, 5].map (fun d => roll_one d 6)

/-- Two tied d6 rolls `[5, 5]`. -/
def dice55 : List TaggedDiceRoll := [5, 5].map (fun d => roll_one d 6)

/-- A verbose-strategy roll vector from plain values (no flags), as
`verbose_roll` builds before augments. -/
def vRolls (vs : List Int) : List DiceRoll := vs.map (fun v => ⟨v, false, false, false⟩)

def onePlusOne : Syn.Expression := .Subexpression (.Binop .Add (.Constant 1) (.Constant 1))
def threeMinusOne : Syn.Expression := .Subexpression (.Binop .Subtract (.Constant 3) (.Constant 1))
def fiveMinusOne : Syn.Expression := .Subexpression (.Binop .Subtract (.Constant 5) (.Constant 1))

/-! ## Helper lemmas -/

lemma map_value_of_preserve (g : TaggedDiceRoll → TaggedDiceRoll)
    (hg : ∀ d, (g d).value = d.value) :
    ∀ l : List TaggedDiceRoll, (l.map g).map (·.value) = l.map (·.value)
  | [] => rfl
  | d :: l => by simp [map_value_of_preserve g hg l, hg d]

lemma discard_value (d : TaggedDiceRoll) : d.discard.value = d.value := rfl

lemma enum_eq_enumFrom_zero (l : List TaggedDiceRoll) : l.enum = List.enumFrom 0 l := rfl

lemma enumFrom_discard_value (keep : List Nat) :
    ∀ (n : Nat) (l : List TaggedDiceRoll),
      ((List.enumFrom n l).map
          (fun p => if keep.contains p.1 then p.2 else p.2.discard)).map (·.value)
        = l.map (·.value)
  | _, [] => rfl
  | n, d :: l => by
    have ih := enumFrom_discard_value keep (n + 1) l
    simp only [List.enumFrom, List.map_cons]
    rw [ih]
    cases hc : keep.contains n <;> simp [hc, discard_value]

/-- Each augmentation pass of the tagged engine preserves the rolled values
and their order (it only sets tags). -/
lemma augmentStep_value (dice : List TaggedDiceRoll) (a : Augmentation) :
    (augmentStep dice a).map (·.value) = dice.map (·.value) := by
  cases a with
  | Truncate op affix n =>
    simp only [augmentStep, enum_eq_enumFrom_zero]
    exact enumFrom_discard_value _ 0 dice
  | Filter op sel =>
    apply map_value_of_preserve
    intro d
    by_cases h : should_selector_discard d.value sel op <;> simp [h, discard_value]
  | Emphasis n => rfl
  | Explode s => rfl

/-- `augment` preserves the rolled values in their original roll order. -/
lemma augment_value : ∀ (augs : List Augmentation) (dice : List TaggedDiceRoll),
    (augment dice augs).map (·.value) = dice.map (·.value)
  | [], _ => rfl
  | a :: rest, dice => by
    have h1 := augmentStep_value dice a
    have h2 := augment_value rest (augmentStep dice a)
    simp only [augment, List.foldl_cons] at *
    rw [h2, h1]

/-! ## Claim theorems -/

/-- **C1, counterexample.**  The claim asserts fixed precedence ranks with Add
and Subtract strictly above Equals, LessThan and GreaterThan.  The code's rank
function (`From<BinaryOperator> for u8`, parser.rs lines 21-31) does the
opposite: Equals ranks 3 and Add ranks 1, so "Add strictly above Equals" is
false of the code's ranks (and parser.rs has no `Chain` operator at all). -/
theorem C1_rank_counterexample :
    ¬ (BinaryOperator.toU8 .Equals < BinaryOperator.toU8 .Add) ∧
    BinaryOperator.toU8 .Add < BinaryOperator.toU8 .Equals := by decide

/-- **C1, amended.**  parser.rs's u8 rank function assigns comparisons rank 3,
Multiply 2, Add/Subtract 1, and has no `Chain` operator; but `_parse` compares
operators with the derived `PartialOrd` (declaration order), under which every
comparison operator is strictly below Add, Subtract and Multiply, and Multiply
is strictly above Add and Subtract.  Hence in parsed trees a comparison beside
an additive or multiplicative operator binds last: `"1 + 2 > 3"` groups as
`(1 + 2) > 3`, and `parse("2 + 3 * 4")` evaluated with the fast strategy
returns 14, never 20. -/
theorem C1_precedence :
    (BinaryOperator.toU8 .Multiply = 2 ∧ BinaryOperator.toU8 .Add = 1 ∧
      BinaryOperator.toU8 .Subtract = 1 ∧ BinaryOperator.toU8 .Equals = 3 ∧
      BinaryOperator.toU8 .LessThan = 3 ∧ BinaryOperator.toU8 .GreaterThan = 3) ∧
    (BinaryOperator.discriminant .Equals < BinaryOperator.discriminant .Add ∧
      BinaryOperator.discriminant .LessThan < BinaryOperator.discriminant .Add ∧
      BinaryOperator.discriminant .GreaterThan < BinaryOperator.discriminant .Add ∧
      BinaryOperator.discriminant .Equals < BinaryOperator.discriminant .Subtract ∧
      BinaryOperator.discriminant .LessThan < BinaryOperator.discriminant .Subtract ∧
      BinaryOperator.discriminant .GreaterThan < BinaryOperator.discriminant .Subtract ∧
      BinaryOperator.discriminant .Add < BinaryOperator.discriminant .Multiply ∧
      BinaryOperator.discriminant .Subtract < BinaryOperator.discriminant .Multiply) ∧
    parse ("1 + 2 > 3") =
      .ok (.Binop .GreaterThan (.Binop .Add (.Constant 1) (.Constant 2)) (.Constant 3)) ∧
    parse ("2 + 3 * 4") =
      .ok (.Binop .Add (.Constant 2) (.Binop .Multiply (.Constant 3) (.Constant 4))) ∧
    fastVisit (.Binop .Add (.Constant 2) (.Binop .Multiply (.Constant 3) (.Constant 4))) []
      = .res (.ok 14) [] :=
  ⟨by decide, by decide, rfl, rfl, rfl⟩

/-- **C2, counterexample.**  Against the claim: (a) the tagged strategy's
total of `4d6kh2` over rolls `[3, 6, 1, 5]` is 15, not 11 (`NaiveValue::total`
sums discarded dice too); (b) on tied rolls `[5, 5]`, `kh1` retains the
first-rolled die, whereas "first-rolled ranks lower" would retain the
second-rolled; (c) `kh5` over four dice returns all retained with no
truncation-failure error; (d) the verbose engine's Truncate keeps three dice
out of `[5, 5, 6, 6]` for `kh2` instead of exactly the 2 highest. -/
theorem C2_truncate_counterexample :
    NaiveValue.total (.Dice (augment dice3615 [.Truncate .Keep .High (some 2)])) = 15 ∧
    (augment dice55 [.Truncate .Keep .High none]).map (·.tag.discarded) = [false, true] ∧
    (augment dice3615 [.Truncate .Keep .High (some 5)]).map (·.tag.discarded)
      = [false, false, false, false] ∧
    apply_augments (vRolls [5, 5, 6, 6]) [.Truncate .Keep .High (some 2)]
      = .ok (vRolls [5, 6, 6]) :=
  ⟨rfl, rfl, rfl, rfl⟩

/-- **C2, amended.**  Tagged strategy (naive.rs `augment`): Truncate ranks the
dice ascending by value with ties resolved by binary-search insertion (for two
equal values the later-rolled ranks lower, so `kh1` on `[5, 5]` retains the
first-rolled die); Keep High/Drop Low mark all but the top `n` discarded and
Keep Low/Drop High all but the bottom `n` (default `n = 1`); for `4d6kh2` over
`[3, 6, 1, 5]` the non-discarded dice are exactly `{6, 5}`, whose sum is 11,
while `NaiveValue::total` reports 15 (it sums discarded dice); if `n` exceeds
the dice count, everything stays retained and no truncation-failure error is
produced.  Verbose strategy (verbose.rs `apply_augments`): dice are removed,
not marked; the drain index comes from binary-searching the *count* `n` among
the sorted values, which happens to keep `[5, 6]` (sum 11) for `kh2` over
sorted `[1, 3, 5, 6]`, and its truncation-failure branch is a `todo!()` panic. -/
theorem C2_truncate_behavior :
    (augment dice3615 [.Truncate .Keep .High (some 2)]).map (·.tag.discarded)
      = [true, false, true, false] ∧
    (augment dice3615 [.Truncate .Keep .High (some 2)]).map (·.value) = [3, 6, 1, 5] ∧
    sumNonDiscarded (augment dice3615 [.Truncate .Keep .High (some 2)]) = 11 ∧
    NaiveValue.total (.Dice (augment dice3615 [.Truncate .Keep .High (some 2)])) = 15 ∧
    (augment dice3615 [.Truncate .Keep .Low (some 2)]).map (·.tag.discarded)
      = [false, true, false, true] ∧
    augment dice3615 [.Truncate .Drop .Low (some 2)]
      = augment dice3615 [.Truncate .Keep .High (some 2)] ∧
    augment dice3615 [.Truncate .Drop .High (some 2)]
      = augment dice3615 [.Truncate .Keep .Low (some 2)] ∧
    (augment dice3615 [.Truncate .Keep .High none]).map (·.tag.discarded)
      = [true, false, true, true] ∧
    (augment dice55 [.Truncate .Keep .High none]).map (·.tag.discarded) = [false, true] ∧
    (augment dice3615 [.Truncate .Keep .High (some 5)]).map (·.tag.discarded)
      = [false, false, false, false] ∧
    apply_augments (vRolls [1, 3, 5, 6]) [.Truncate .Keep .High (some 2)]
      = .ok (vRolls [5, 6]) ∧
    apply_augments (vRolls [1, 1, 1, 1]) [.Truncate .Keep .High (some 2)] = .panic :=
  ⟨rfl, rfl, rfl, rfl, rfl, rfl, rfl, rfl, rfl, rfl, rfl, rfl⟩

/-- **C3.**  The tagged augmentation engine does return the same rolled values
in original roll order, each possibly marked discarded (first conjunct, fully
general), and the sum of the non-discarded values of the claim's example is
11 — but the term's contribution to a parent total is computed by
`NaiveValue::total`, which sums every die regardless of the `DISCARDED` flag
and yields 15: the code contradicts the flag's documented meaning.  -/
theorem C3_discard_totals :
    (∀ (augs : List Augmentation) (dice : List TaggedDiceRoll),
      (augment dice augs).map (·.value) = dice.map (·.value)) ∧
    sumNonDiscarded (augment dice3615 [.Truncate .Keep .High (some 2)]) = 11 ∧
    NaiveValue.total (.Dice (augment dice3615 [.Truncate .Keep .High (some 2)])) = 15 :=
  ⟨augment_value, rfl, rfl⟩

/-- **C4.**  `multiconvolve(2, 6) = [1,2,3,4,5,6,5,4,3,2,1]` with entries
summing to `6^2` (so the mass function assigns `1/36` to sums 2 and 12 and
`6/36` to sum 7, and sums to 1), entry `s - count` holding the mass of sum
`s`; and each further die convolves once more with the uniform vector
(the count-fold convolution recurrence), all in exact integer arithmetic. -/
theorem C4_multiconvolve :
    multiconvolve 2 6 = [1, 2, 3, 4, 5, 6, 5, 4, 3, 2, 1] ∧
    (multiconvolve 2 6).sum = 6 ^ 2 ∧
    (multiconvolve 2 6).get? (2 - 2) = some 1 ∧
    (multiconvolve 2 6).get? (7 - 2) = some 6 ∧
    (multiconvolve 2 6).get? (12 - 2) = some 1 ∧
    (∀ count power : Nat,
      multiconvolve (count + 2) power
        = convolve (multiconvolve (count + 1) power) (List.replicate power 1)) :=
  ⟨rfl, rfl, rfl, rfl, rfl, fun count power => by
    simp only [multiconvolve, Nat.add_sub_cancel]
    exact Function.iterate_succ_apply' _ _ _⟩

/-- **C5.**  The candidate range of the sampler is `[count, count·power]`
(`lb = 2`, `rb = 13` for 2d6) as claimed, but the acceptance test does not use
the mass belonging to the candidate itself: `nth` indexes `multiconvolve` at
`u - 1` instead of `u - count`.  For 2d6, candidate 12 (a legal candidate)
reads index 11 of the 11-entry vector — an out-of-bounds panic — and
candidate 2 is accepted against mass 2 (the mass of sum 3) although the mass
of sum 2 is 1: the trial `u = 2, v = 2` accepts where the claimed behavior
rejects. -/
theorem C5_rejection_sampling :
    zigguratLb 2 6 = 2 ∧ zigguratRb 2 6 = 2 * 6 + 1 ∧
    nth 2 6 12 = none ∧
    nth 2 6 2 = some 2 ∧
    (multiconvolve 2 6).get? (2 - 2) = some 1 ∧
    (multiconvolve 2 6).get? (3 - 2) = some 2 ∧
    zigguratTrial 2 6 2 2 = some true :=
  ⟨rfl, rfl, rfl, rfl, rfl, rfl, rfl⟩

/-- **C6, counterexample.**  `2d6!>1` has an explosion condition that can fail
to match (face value 1 does not satisfy `> 1`), yet `verbose_roll` rejects it
with the infinite-explosion error before consuming any random draw, because
the guard tests the relation against `count = 2` and `count·power = 12`
rather than against producible face values. -/
theorem C6_guard_counterexample :
    checkExplosionConds [some ⟨.gt, 1⟩] 1 6 = false ∧
    verbose_roll [] 2 6 [.Explode (some ⟨.gt, 1⟩)] = .err .InfiniteExplosion :=
  ⟨rfl, rfl⟩

/-- **C6, amended.**  The infinite-explosion guard is a heuristic over
`count` and `count·power`, not over face values: whenever some explosion
selector's relation holds at both `count` and `count·power`, evaluation is
rejected with the infinite-explosion error before any die is rolled (fully
general first conjunct; the rolls stream is arbitrary and unconsumed).  The
guard both over-rejects (`2d6!>1` is rejected although face 1 stops the
explosion) and under-rejects (`20d6!<10` passes the guard although every face
of a d6 matches `< 10`, so rolling explodes forever — the model exhausts any
finite supply of draws). -/
theorem C6_guard_behavior :
    (∀ (stream : List Nat) (count power : Nat) (augs : List Augmentation),
      infiniteGuard count power (explodeConds augs) = true →
        verbose_roll stream count power augs = .err .InfiniteExplosion) ∧
    infiniteGuard 2 6 (explodeConds [.Explode (some ⟨.gt, 1⟩)]) = true ∧
    checkExplosionConds [some ⟨.gt, 1⟩] 1 6 = false ∧
    infiniteGuard 20 6 (explodeConds [.Explode (some ⟨.lt, 10⟩)]) = false ∧
    ((List.range 6).all (fun v => checkExplosionConds [some ⟨.lt, 10⟩] (v + 1) 6)) = true ∧
    verbose_roll (List.replicate 25 1) 20 6 [.Explode (some ⟨.lt, 10⟩)] = .rng :=
  ⟨fun stream count power augs h => by simp [verbose_roll, h],
    rfl, rfl, rfl, by decide, rfl⟩

/-- **C6 witness**: the general conjunct applied at `1d6!<10`, whose guard
holds (`1 < 10` and `6 < 10`). -/
theorem C6_guard_behavior_witness :
    verbose_roll [] 1 6 [.Explode (some ⟨.lt, 10⟩)] = .err .InfiniteExplosion :=
  C6_guard_behavior.1 [] 1 6 [.Explode (some ⟨.lt, 10⟩)] (by rfl)

/-- **C7.**  The fast strategy converts fitting constants exactly and returns
`ValueTooLarge` as an error value for a constant outside i32 — but the naive
(tagged) strategy's `visit_constant` calls `i64::try_from(c).unwrap()`:
a constant outside i64 (here `2^63`) panics instead of producing the
`ValueTooLarge` error that error.rs declares for exactly this case. -/
theorem C7_constant_conversion :
    fast_visit_constant (2 ^ 31) = .error .ValueTooLarge ∧
    fast_visit_constant 7 = .ok 7 ∧
    naive_visit_constant (2 ^ 63) = .panic ∧
    naive_visit_constant 5 = .ok (.Constant 5) :=
  ⟨rfl, rfl, rfl, rfl⟩

/-- **C8.**  Verbose-strategy annotation maps (modelled from the spec; the
`StandardVerboseRoller` implementation is absent from src/):
`(1+1)[x] + (3-1)[x]` succeeds because both sub-results equal 2, while
`(1+1)[x] + (5-1)[x]` fails with the duplicate-annotation error carrying both
originating expressions; in general merging maps binding the same label to
differing results yields exactly that error, and to equal results succeeds. -/
theorem C8_duplicate_labels :
    verboseEval (.Binop .Add (.Annotated onePlusOne "x") (.Annotated threeMinusOne "x"))
      = some (.ok (4, [("x", onePlusOne, 2)])) ∧
    verboseEval (.Binop .Add (.Annotated onePlusOne "x") (.Annotated fiveMinusOne "x"))
      = some (.error (.DuplicateAnnot "x" onePlusOne fiveMinusOne)) ∧
    (∀ (lbl : String) (e1 e2 : Syn.Expression) (v1 v2 : Int), v1 ≠ v2 →
      mergeAnn [(lbl, e1, v1)] [(lbl, e2, v2)] = .error (.DuplicateAnnot lbl e1 e2)) ∧
    (∀ (lbl : String) (e1 e2 : Syn.Expression) (v : Int),
      mergeAnn [(lbl, e1, v)] [(lbl, e2, v)] = .ok [(lbl, e1, v)]) :=
  ⟨rfl, rfl,
    fun lbl e1 e2 v1 v2 h => by
      simp [mergeAnn, List.foldlM, annInsert, annLookup, List.find?, h],
    fun lbl e1 e2 v => by
      simp [mergeAnn, List.foldlM, annInsert, annLookup, List.find?]⟩

/-- **C8 witness**: the differing-results conjunct applied at the claim's own
example data (label `x`, results 2 and 4). -/
theorem C8_duplicate_labels_witness :
    mergeAnn [("x", onePlusOne, 2)] [("x", fiveMinusOne, 4)]
      = .error (.DuplicateAnnot "x" onePlusOne fiveMinusOne) :=
  C8_duplicate_labels.2.2.1 "x" onePlusOne fiveMinusOne 2 4 (by decide)

/-- **C9, counterexample.**  Parsing the empty string does not fail with the
empty-expression kind: after draining, `_parse` checks
`expressions.len() != operators.len() + 1` (0 ≠ 1) first and returns
`MissingOperator`; the `EmptyExpression` return is unreachable behind it. -/
theorem C9_empty_counterexample :
    parse ("") = .err .MissingOperator ∧
    ParsingError.EmptyExpression ≠ ParsingError.MissingOperator :=
  ⟨rfl, by decide⟩

/-- **C9, amended.**  The empty string fails with `MissingOperator` — the very
kind reported for two adjacent operands — although the distinct
`EmptyExpression` kind exists; other no-expression inputs (whitespace only)
panic in the whitespace-skip loop instead of returning an error. -/
theorem C9_empty_behavior :
    parse ("") = .err .MissingOperator ∧
    parse ("2 + 3 4 + 5") = .err .MissingOperator ∧
    parse ("(1 2) * 3") = .err .MissingOperator ∧
    ParsingError.EmptyExpression ≠ ParsingError.MissingOperator ∧
    parse (" ") = .panic :=
  ⟨rfl, rfl, rfl, by decide, rfl⟩

/-- **C10.**  `parse` is not total: the whitespace-skip loops evaluate
`chars[0].is_whitespace()` without checking emptiness, so a whitespace-only
input and an input with trailing whitespace index out of bounds and panic
(while ordinary inputs do return a result). -/
theorem C10_whitespace_panic :
    parse (" ") = .panic ∧
    parse ("1 ") = .panic ∧
    parse ("1 + 1") = .ok (.Binop .Add (.Constant 1) (.Constant 1)) :=
  ⟨rfl, rfl, rfl⟩
